import Mathlib

/-!
# Verification of the browser-extension task execution engine

Shallow embedding of the `TaskExecutor` class in
`src/browser-extension/src/content.ts` (the dispatch engine of the
jarvis-assistant repository), together with proofs of the specified
properties: the admission bound, exactly-one-result, FIFO queue
admission, error handling for unknown task types and actions, the
wire shape of `task_result` messages, and independence from the
`retryAttempts` configuration field.

JavaScript runtime values are modelled by `JVal`; property access on
`null`/`undefined` raises a `TypeError`, which the embedding carries in
`Except`. The engine's asynchronous execution is modelled as a
small-step machine: a `task_request` intake runs the synchronous part
of `handleTaskRequest` (admission or queueing), and a later `finish`
event runs the continuation after `await this.executeTask(task)`
settles (result emission, decrement, queue drain). The environment
chooses the outcome of the handler's single I/O round trip and the
clock value used for the timestamp.
-/

/-- A JavaScript runtime value (the shapes reachable in this engine). -/
inductive JVal where
  | null : JVal
  | undef : JVal
  | bool : Bool → JVal
  | num : Int → JVal
  | str : String → JVal
  | arr : List JVal → JVal
  | obj : List (String × JVal) → JVal

/-- JavaScript property access `v[k]`: a `TypeError` on `null`/`undefined`,
the field (or `undefined`) on objects, and `undefined` on other
primitives (none of the properties this engine reads exists on them). -/
def getProp : JVal → String → Except String JVal
  | JVal.null, k => Except.error ("TypeError: Cannot read properties of null (reading " ++ k ++ ")")
  | JVal.undef, k => Except.error ("TypeError: Cannot read properties of undefined (reading " ++ k ++ ")")
  | JVal.obj fields, k =>
      Except.ok (match fields.lookup k with
        | some v => v
        | none => JVal.undef)
  | _, _ => Except.ok JVal.undef

/-- Whether a value is `null` or `undefined` (property access throws). -/
def isNullish : JVal → Bool
  | JVal.null => true
  | JVal.undef => true
  | _ => false

/-- JavaScript string interpolation of a value, as used by the template
literals in the error messages (arrays approximated by the empty join). -/
def toJSString : JVal → String
  | JVal.null => "null"
  | JVal.undef => "undefined"
  | JVal.bool true => "true"
  | JVal.bool false => "false"
  | JVal.num n => toString n
  | JVal.str s => s
  | JVal.arr _ => ""
  | JVal.obj _ => "[object Object]"

/-- JavaScript strict equality of a value against a string literal, as
performed by a `switch` statement's case comparison. -/
def jeqStr : JVal → String → Bool
  | JVal.str a, b => a == b
  | _, _ => false

/-- `executeDOMTask` (content.ts lines 301-339): destructures
`task.parameters`, dispatches on `action` over CLICK / INPUT / SCROLL
(each an `executeInPage` round trip whose outcome `rio` the environment
supplies), otherwise throws. -/
def executeDOMTask (task : JVal) (rio : Except String JVal) : Except String JVal :=
  match getProp task "parameters" with
  | Except.error e => Except.error e
  | Except.ok params =>
    match getProp params "action" with
    | Except.error e => Except.error e
    | Except.ok action =>
      if jeqStr action "CLICK" then rio
      else if jeqStr action "INPUT" then rio
      else if jeqStr action "SCROLL" then rio
      else Except.error ("Unknown DOM action: " ++ toJSString action)

/-- `executeNetworkTask` (content.ts lines 341-349): destructures
`task.parameters` (a `TypeError` if nullish), then performs the `fetch`
whose outcome the environment supplies. -/
def executeNetworkTask (task : JVal) (rio : Except String JVal) : Except String JVal :=
  match getProp task "parameters" with
  | Except.error e => Except.error e
  | Except.ok params =>
    match getProp params "url" with
    | Except.error e => Except.error e
    | Except.ok _ => rio

/-- `executeUITask` (content.ts lines 351-374): destructures
`task.parameters`, dispatches on `action` over OPEN_POPUP /
SHOW_NOTIFICATION (browser API calls supplied by the environment),
otherwise throws. -/
def executeUITask (task : JVal) (rio : Except String JVal) : Except String JVal :=
  match getProp task "parameters" with
  | Except.error e => Except.error e
  | Except.ok params =>
    match getProp params "action" with
    | Except.error e => Except.error e
    | Except.ok action =>
      if jeqStr action "OPEN_POPUP" then rio
      else if jeqStr action "SHOW_NOTIFICATION" then rio
      else Except.error ("Unknown UI action: " ++ toJSString action)

/-- `executeDataExtractionTask` (content.ts lines 376-403): destructures
`task.parameters`, dispatches on the `type` sub-field over TEXT /
ATTRIBUTES / SCREENSHOT, otherwise throws. -/
def executeDataExtractionTask (task : JVal) (rio : Except String JVal) : Except String JVal :=
  match getProp task "parameters" with
  | Except.error e => Except.error e
  | Except.ok params =>
    match getProp params "type" with
    | Except.error e => Except.error e
    | Except.ok ty =>
      if jeqStr ty "TEXT" then rio
      else if jeqStr ty "ATTRIBUTES" then rio
      else if jeqStr ty "SCREENSHOT" then rio
      else Except.error ("Unknown extraction type: " ++ toJSString ty)

/-- `executeTask` (content.ts lines 286-299): reads `task.type` (a
`TypeError` if the task is nullish) and dispatches by strict string
comparison, throwing on an unknown type. `rio` is the outcome of the
single I/O round trip the chosen handler performs. -/
def executeTask (task : JVal) (rio : Except String JVal) : Except String JVal :=
  match getProp task "type" with
  | Except.error e => Except.error e
  | Except.ok t =>
    if jeqStr t "DOM_MANIPULATION" then executeDOMTask task rio
    else if jeqStr t "NETWORK_INTERCEPT" then executeNetworkTask task rio
    else if jeqStr t "UI_AUTOMATION" then executeUITask task rio
    else if jeqStr t "DATA_EXTRACTION" then executeDataExtractionTask task rio
    else Except.error ("Unknown task type: " ++ toJSString t)

/-- The `task_result` message object built by `sendTaskResult`
(content.ts lines 416-427). `error` models the caught error's
`.message` (the code sends `error ? error.message : null`); the
timestamp is the `new Date().toISOString()` string the clock supplied.
Note the object literal has no top-level `sender` field. -/
def sendTaskResult (taskId : JVal) (status : String) (result : JVal)
    (error : Option String) (timestamp : String) : JVal :=
  JVal.obj
    [("message_type", JVal.str "task_result"),
     ("content", JVal.obj
       [("task_id", taskId),
        ("status", JVal.str status),
        ("result", result),
        ("error", match error with
          | some m => JVal.str m
          | none => JVal.null),
        ("timestamp", JVal.str timestamp)])]

/-- `TaskExecutorConfig` (content.ts lines 233-237). -/
structure TaskExecutorConfig where
  maxConcurrentTasks : Nat
  defaultTimeout : Nat
  retryAttempts : Nat

/-- The configuration the module instantiates the executor with
(content.ts lines 430-434). -/
def jarvisConfig : TaskExecutorConfig :=
  { maxConcurrentTasks := 5, defaultTimeout := 30000, retryAttempts := 3 }

/-- The dispatch engine state. `activeTaskCount` and `taskQueue` are the
fields of the `TaskExecutor` class; `running` models the set of
suspended `handleTaskRequest` continuations (each in-flight task,
keyed by a model-level token so that identical task values stay
distinguishable); `sent` is the trace of messages passed to
`socket.send`. The remaining fields are ghost instrumentation: the
arrival token counter, the admitted tasks, the queue push and pop
orders, the tokens a result was emitted for, and the tokens whose
completion continuation itself threw before reaching the decrement. -/
structure EngineState where
  activeTaskCount : Nat
  taskQueue : List (Nat × JVal)
  running : List (Nat × JVal)
  sent : List JVal
  nextToken : Nat
  admitted : List (Nat × JVal)
  enqOrder : List Nat
  deqOrder : List Nat
  emittedFor : List Nat
  crashed : List Nat

/-- The state at construction: counter zero, queue empty. -/
def initialState : EngineState :=
  { activeTaskCount := 0, taskQueue := [], running := [], sent := [],
    nextToken := 0, admitted := [], enqOrder := [], deqOrder := [],
    emittedFor := [], crashed := [] }

/-- Tokens currently waiting in the queue. -/
def queueToks (s : EngineState) : List Nat := s.taskQueue.map Prod.fst

/-- Tokens currently in flight. -/
def runToks (s : EngineState) : List Nat := s.running.map Prod.fst

/-- Tokens ever admitted to `Active`. -/
def admToks (s : EngineState) : List Nat := s.admitted.map Prod.fst

/-- The task value of the in-flight continuation identified by `tok`. -/
def findRunning (l : List (Nat × JVal)) (tok : Nat) : Option JVal :=
  match l.find? (fun p => p.1 == tok) with
  | some p => some p.2
  | none => none

/-- Remove the in-flight continuation identified by `tok`. -/
def removeRun (l : List (Nat × JVal)) (tok : Nat) : List (Nat × JVal) :=
  l.filter (fun p => !(p.1 == tok))

/-- The synchronous intake of `handleTaskRequest` (content.ts lines
265-271): at capacity the task is pushed on the queue; otherwise the
count is incremented and the task starts executing (becomes in-flight
until its `finish` event). `tok` is the task's model token. -/
def admitOrQueue (cfg : TaskExecutorConfig) (s : EngineState) (tok : Nat) (task : JVal) :
    EngineState :=
  if s.activeTaskCount ≥ cfg.maxConcurrentTasks then
    { s with taskQueue := s.taskQueue ++ [(tok, task)],
             enqOrder := s.enqOrder ++ [tok] }
  else
    { s with activeTaskCount := s.activeTaskCount + 1,
             running := s.running ++ [(tok, task)],
             admitted := s.admitted ++ [(tok, task)] }

/-- The tail of `handleTaskRequest` after the result was sent
(content.ts lines 278-283): `this.activeTaskCount--`, then if the queue
is non-empty, `shift()` its head and re-enter `handleTaskRequest`
recursively (whose synchronous intake runs before the next suspension). -/
def afterSend (cfg : TaskExecutorConfig) (s : EngineState) : EngineState :=
  let s1 := { s with activeTaskCount := s.activeTaskCount - 1 }
  match s1.taskQueue with
  | [] => s1
  | (tok2, t2) :: rest =>
      admitOrQueue cfg
        { s1 with taskQueue := rest, deqOrder := s1.deqOrder ++ [tok2] }
        tok2 t2

/-- The continuation of `handleTaskRequest` once
`await this.executeTask(task)` settles (content.ts lines 272-283):
on resolution send a `completed` result, on rejection send a `failed`
result with the error's message — in both branches `task.id` is read
first, and if the task is nullish that read itself throws, so the send,
the decrement and the queue drain are all skipped (the async function
rejects). `rio` is the environment's outcome for the handler's I/O and
`ts` the clock's ISO string. A `tok` that is not in flight is a no-op. -/
def stepFinish (cfg : TaskExecutorConfig) (s : EngineState) (tok : Nat)
    (rio : Except String JVal) (ts : String) : EngineState :=
  match findRunning s.running tok with
  | none => s
  | some task =>
    let s1 := { s with running := removeRun s.running tok }
    match executeTask task rio, getProp task "id" with
    | Except.ok result, Except.ok tid =>
        afterSend cfg
          { s1 with sent := s1.sent ++ [sendTaskResult tid "completed" result none ts],
                    emittedFor := s1.emittedFor ++ [tok] }
    | Except.error emsg, Except.ok tid =>
        afterSend cfg
          { s1 with sent := s1.sent ++ [sendTaskResult tid "failed" JVal.null (some emsg) ts],
                    emittedFor := s1.emittedFor ++ [tok] }
    | _, Except.error _ =>
        { s1 with crashed := s1.crashed ++ [tok] }

/-- Arrival of a `task_request` content value: the intake of
`handleTaskRequest` on a fresh token. -/
def stepArrive (cfg : TaskExecutorConfig) (s : EngineState) (task : JVal) : EngineState :=
  admitOrQueue cfg { s with nextToken := s.nextToken + 1 } s.nextToken task

/-- The `socket.onmessage` handler (content.ts lines 253-258) at the
parsed-JSON level: read `message.message_type` (a `TypeError` on a
nullish message leaves the state untouched), and only a strict match
with the string `task_request` reaches `handleTaskRequest` with
`message.content`; every other message is ignored. -/
def stepMessage (cfg : TaskExecutorConfig) (s : EngineState) (msg : JVal) : EngineState :=
  match getProp msg "message_type" with
  | Except.error _ => s
  | Except.ok mt =>
    if jeqStr mt "task_request" then
      match getProp msg "content" with
      | Except.error _ => s
      | Except.ok task => stepArrive cfg s task
    else s

/-- An event of the engine's execution: an inbound websocket message, or
the settling of one in-flight task's `executeTask` promise (with the
environment's I/O outcome and the clock's timestamp string). -/
inductive Ev where
  | msg : JVal → Ev
  | finish : Nat → Except String JVal → String → Ev

/-- One step of the engine. -/
def step (cfg : TaskExecutorConfig) (s : EngineState) : Ev → EngineState
  | Ev.msg m => stepMessage cfg s m
  | Ev.finish tok rio ts => stepFinish cfg s tok rio ts

/-- Run the engine from construction over a list of events. -/
def runEngine (cfg : TaskExecutorConfig) (evs : List Ev) : EngineState :=
  evs.foldl (step cfg) initialState

/-- The states reachable in some execution trace. -/
inductive Reachable (cfg : TaskExecutorConfig) : EngineState → Prop where
  | init : Reachable cfg initialState
  | step (e : Ev) {s : EngineState} : Reachable cfg s → Reachable cfg (step cfg s e)

/-- Nesting depth of `handleTaskRequest` activations during a queue
drain, as a function of the queue contents: the completion continuation
re-enters `handleTaskRequest` recursively (content.ts line 282,
`await this.handleTaskRequest(nextTask)`), so with `n` tasks queued and
no further arrivals the drain nests `n + 1` activations. -/
def drainCallDepth : List JVal → Nat
  | [] => 1
  | _ :: rest => 1 + drainCallDepth rest

/-! ## List bookkeeping lemmas -/

lemma findRunning_mem {l : List (Nat × JVal)} {tok : Nat} {task : JVal}
    (h : findRunning l tok = some task) : (tok, task) ∈ l := by
  unfold findRunning at h
  cases hf : l.find? (fun p => p.1 == tok) with
  | none => rw [hf] at h; cases h
  | some p =>
    rw [hf] at h
    have hm := List.mem_of_find?_eq_some hf
    have hp := List.find?_some hf
    have h1 : p.1 = tok := by simpa using hp
    cases h
    rw [← h1]
    simpa using hm

lemma mem_map_fst {l : List (Nat × JVal)} {tok : Nat} {task : JVal}
    (h : (tok, task) ∈ l) : tok ∈ l.map Prod.fst :=
  List.mem_map.mpr ⟨(tok, task), h, rfl⟩

lemma mem_of_mem_removeRun {l : List (Nat × JVal)} {tok : Nat} {p : Nat × JVal}
    (h : p ∈ removeRun l tok) : p ∈ l :=
  List.mem_of_mem_filter h

lemma count_removeRun_self (l : List (Nat × JVal)) (tok : Nat) :
    ((removeRun l tok).map Prod.fst).count tok = 0 := by
  rw [List.count_eq_zero]
  intro hm
  rcases List.mem_map.mp hm with ⟨p, hp, he⟩
  have hpf := (List.mem_filter.mp hp).2
  rw [he] at hpf
  simp at hpf

lemma count_removeRun_other (l : List (Nat × JVal)) {tok t : Nat} (h : t ≠ tok) :
    ((removeRun l tok).map Prod.fst).count t = (l.map Prod.fst).count t := by
  induction l with
  | nil => rfl
  | cons p l ih =>
    by_cases hp : p.1 = tok
    · have h1 : removeRun (p :: l) tok = removeRun l tok := by
        simp [removeRun, List.filter_cons, hp]
      rw [h1, ih]
      simp [List.count_cons, hp, h]
    · have h1 : removeRun (p :: l) tok = p :: removeRun l tok := by
        simp [removeRun, List.filter_cons, hp]
      rw [h1]
      simp only [List.map_cons, List.count_cons, ih]

lemma length_removeRun {l : List (Nat × JVal)} {tok : Nat} (h : tok ∈ l.map Prod.fst) :
    (removeRun l tok).length + 1 ≤ l.length := by
  induction l with
  | nil => simp at h
  | cons p l ih =>
    by_cases hp : p.1 = tok
    · have h1 : removeRun (p :: l) tok = removeRun l tok := by
        simp [removeRun, List.filter_cons, hp]
      rw [h1]
      have h2 : (removeRun l tok).length ≤ l.length := List.length_filter_le _ _
      simpa using Nat.succ_le_succ h2
    · have h1 : removeRun (p :: l) tok = p :: removeRun l tok := by
        simp [removeRun, List.filter_cons, hp]
      have h3 : tok ∈ l.map Prod.fst := by
        rcases List.mem_map.mp h with ⟨q, hq, he⟩
        rcases List.mem_cons.mp hq with h4 | h4
        · exact absurd (by rw [h4] at he; exact he) hp
        · exact List.mem_map.mpr ⟨q, h4, he⟩
      rw [h1]
      simpa using Nat.succ_le_succ (ih h3)

lemma pair_eq_of_count_le_one {l : List (Nat × JVal)} {tok : Nat} {a b : JVal}
    (hc : (l.map Prod.fst).count tok ≤ 1) (ha : (tok, a) ∈ l) (hb : (tok, b) ∈ l) : a = b := by
  induction l with
  | nil => cases ha
  | cons p l ih =>
    rcases List.mem_cons.mp ha with h1 | h1 <;> rcases List.mem_cons.mp hb with h2 | h2
    · rw [← h1] at h2; exact congrArg Prod.snd h2.symm
    · exfalso
      have hpos : 0 < (l.map Prod.fst).count tok :=
        List.count_pos_iff.mpr (mem_map_fst h2)
      have : (((tok, a) : Nat × JVal) :: l).map Prod.fst = tok :: l.map Prod.fst := by simp
      rw [← h1, this, List.count_cons_self] at hc
      omega
    · exfalso
      have hpos : 0 < (l.map Prod.fst).count tok :=
        List.count_pos_iff.mpr (mem_map_fst h1)
      have : (((tok, b) : Nat × JVal) :: l).map Prod.fst = tok :: l.map Prod.fst := by simp
      rw [← h2, this, List.count_cons_self] at hc
      omega
    · refine ih ?_ h1 h2
      have hle : (l.map Prod.fst).count tok ≤ ((p :: l).map Prod.fst).count tok := by
        rw [List.map_cons, List.count_cons]
        exact Nat.le_add_right _ _
      omega

lemma getProp_ok_of_not_nullish {v : JVal} (h : isNullish v = false) (k : String) :
    ∃ u, getProp v k = Except.ok u := by
  cases v with
  | null => simp [isNullish] at h
  | undef => simp [isNullish] at h
  | bool b => exact ⟨_, rfl⟩
  | num n => exact ⟨_, rfl⟩
  | str s => exact ⟨_, rfl⟩
  | arr a => exact ⟨_, rfl⟩
  | obj fields => exact ⟨_, rfl⟩

lemma nullish_of_getProp_error {v : JVal} {k e : String}
    (h : getProp v k = Except.error e) : isNullish v = true := by
  cases v with
  | null => rfl
  | undef => rfl
  | bool b => simp [getProp] at h
  | num n => simp [getProp] at h
  | str s => simp [getProp] at h
  | arr a => simp [getProp] at h
  | obj fields => simp [getProp] at h

/-! ## The inductive invariant -/

/-- The shape of every message the engine passes to `socket.send`: one of
the two `sendTaskResult` call patterns in `handleTaskRequest` (lines
274 and 276). -/
def ResultShape (m : JVal) : Prop :=
  (∃ tid res ts, m = sendTaskResult tid "completed" res none ts) ∨
  (∃ tid e ts, m = sendTaskResult tid "failed" JVal.null (some e) ts)

/-- The inductive invariant of the dispatch engine: the admission bound,
the count dominating the in-flight tasks, the FIFO correspondence
between pops, queue contents and pushes, popped tasks all admitted,
token freshness, each token in at most one phase, the admission ledger,
in-flight tasks being admitted, crashed continuations belonging to
nullish tasks, and every sent message being a `sendTaskResult` result
with one message per emission record. -/
structure EngineInv (cfg : TaskExecutorConfig) (s : EngineState) : Prop where
  active_le : s.activeTaskCount ≤ cfg.maxConcurrentTasks
  run_le : s.running.length ≤ s.activeTaskCount
  fifo : s.deqOrder ++ queueToks s = s.enqOrder
  deq_adm : ∀ tok ∈ s.deqOrder, tok ∈ admToks s
  tok_lt : ∀ tok, tok ∈ queueToks s ∨ tok ∈ runToks s ∨ tok ∈ s.emittedFor ∨
      tok ∈ s.crashed ∨ tok ∈ admToks s → tok < s.nextToken
  uniq : ∀ tok, (queueToks s).count tok + (runToks s).count tok +
      s.emittedFor.count tok + s.crashed.count tok ≤ 1
  adm_count : ∀ tok, (admToks s).count tok =
      (runToks s).count tok + s.emittedFor.count tok + s.crashed.count tok
  run_adm : ∀ p ∈ s.running, p ∈ s.admitted
  crash_nullish : ∀ tok ∈ s.crashed, ∀ task, (tok, task) ∈ s.admitted →
      isNullish task = true
  sent_shape : ∀ m ∈ s.sent, ResultShape m
  sent_len : s.sent.length = s.emittedFor.length

lemma inv_init (cfg : TaskExecutorConfig) : EngineInv cfg initialState := by
  constructor <;> simp [initialState, queueToks, runToks, admToks]

lemma admitOrQueue_queue (cfg : TaskExecutorConfig) (s : EngineState) (tok : Nat) (task : JVal)
    (hcap : cfg.maxConcurrentTasks ≤ s.activeTaskCount) :
    admitOrQueue cfg s tok task =
      { s with taskQueue := s.taskQueue ++ [(tok, task)],
               enqOrder := s.enqOrder ++ [tok] } := by
  unfold admitOrQueue
  rw [if_pos hcap]

lemma admitOrQueue_starts (cfg : TaskExecutorConfig) (s : EngineState) (tok : Nat) (task : JVal)
    (hcap : ¬ cfg.maxConcurrentTasks ≤ s.activeTaskCount) :
    admitOrQueue cfg s tok task =
      { s with activeTaskCount := s.activeTaskCount + 1,
               running := s.running ++ [(tok, task)],
               admitted := s.admitted ++ [(tok, task)] } := by
  unfold admitOrQueue
  rw [if_neg hcap]

lemma inv_arrive (cfg : TaskExecutorConfig) {s : EngineState} (h : EngineInv cfg s) (task : JVal) :
    EngineInv cfg (stepArrive cfg s task) := by
  have hfresh : ∀ tok, tok ∈ queueToks s ∨ tok ∈ runToks s ∨ tok ∈ s.emittedFor ∨
      tok ∈ s.crashed ∨ tok ∈ admToks s → tok ≠ s.nextToken := by
    intro tok hm
    exact Nat.ne_of_lt (h.tok_lt tok hm)
  have hq0 : List.count s.nextToken (s.taskQueue.map Prod.fst) = 0 := by
    rw [List.count_eq_zero]; intro hm; exact hfresh _ (Or.inl hm) rfl
  have hr0 : List.count s.nextToken (s.running.map Prod.fst) = 0 := by
    rw [List.count_eq_zero]; intro hm; exact hfresh _ (Or.inr (Or.inl hm)) rfl
  have he0 : List.count s.nextToken s.emittedFor = 0 := by
    rw [List.count_eq_zero]; intro hm; exact hfresh _ (Or.inr (Or.inr (Or.inl hm))) rfl
  have hc0 : List.count s.nextToken s.crashed = 0 := by
    rw [List.count_eq_zero]; intro hm; exact hfresh _ (Or.inr (Or.inr (Or.inr (Or.inl hm)))) rfl
  have ha0 : List.count s.nextToken (s.admitted.map Prod.fst) = 0 := by
    rw [List.count_eq_zero]; intro hm; exact hfresh _ (Or.inr (Or.inr (Or.inr (Or.inr hm)))) rfl
  have hfifo : s.deqOrder ++ s.taskQueue.map Prod.fst = s.enqOrder := h.fifo
  have huniq : ∀ tok, List.count tok (s.taskQueue.map Prod.fst) +
      List.count tok (s.running.map Prod.fst) + List.count tok s.emittedFor +
      List.count tok s.crashed ≤ 1 := h.uniq
  have hadmc : ∀ tok, List.count tok (s.admitted.map Prod.fst) =
      List.count tok (s.running.map Prod.fst) + List.count tok s.emittedFor +
      List.count tok s.crashed := h.adm_count
  unfold stepArrive
  by_cases hcap : cfg.maxConcurrentTasks ≤ s.activeTaskCount
  · rw [admitOrQueue_queue cfg { s with nextToken := s.nextToken + 1 } s.nextToken task hcap]
    refine ⟨h.active_le, h.run_le, ?_, h.deq_adm, ?_, ?_, h.adm_count, h.run_adm,
      h.crash_nullish, h.sent_shape, h.sent_len⟩
    · show s.deqOrder ++ (s.taskQueue ++ [(s.nextToken, task)]).map Prod.fst =
        s.enqOrder ++ [s.nextToken]
      rw [List.map_append, ← List.append_assoc, hfifo]
      rfl
    · intro tok hm
      show tok < s.nextToken + 1
      have hm2 : tok ∈ (s.taskQueue ++ [(s.nextToken, task)]).map Prod.fst ∨ tok ∈ runToks s ∨
          tok ∈ s.emittedFor ∨ tok ∈ s.crashed ∨ tok ∈ admToks s := hm
      rcases hm2 with hm2 | hm2 | hm2 | hm2 | hm2
      · rw [List.map_append] at hm2
        rcases List.mem_append.mp hm2 with hm3 | hm3
        · exact Nat.lt_succ_of_lt (h.tok_lt tok (Or.inl hm3))
        · simp at hm3; omega
      · exact Nat.lt_succ_of_lt (h.tok_lt tok (Or.inr (Or.inl hm2)))
      · exact Nat.lt_succ_of_lt (h.tok_lt tok (Or.inr (Or.inr (Or.inl hm2))))
      · exact Nat.lt_succ_of_lt (h.tok_lt tok (Or.inr (Or.inr (Or.inr (Or.inl hm2)))))
      · exact Nat.lt_succ_of_lt (h.tok_lt tok (Or.inr (Or.inr (Or.inr (Or.inr hm2)))))
    · intro tok
      show List.count tok ((s.taskQueue ++ [(s.nextToken, task)]).map Prod.fst) +
          List.count tok (s.running.map Prod.fst) + List.count tok s.emittedFor +
          List.count tok s.crashed ≤ 1
      rw [List.map_append, List.count_append]
      have hu := huniq tok
      by_cases heq : tok = s.nextToken
      · subst heq
        have h1 : List.count s.nextToken ([(s.nextToken, task)].map Prod.fst) = 1 := by simp
        omega
      · have h1 : List.count tok ([(s.nextToken, task)].map Prod.fst) = 0 := by
          simp [heq]
        omega
  · rw [admitOrQueue_starts cfg { s with nextToken := s.nextToken + 1 } s.nextToken task hcap]
    refine ⟨?_, ?_, h.fifo, ?_, ?_, ?_, ?_, ?_, ?_, h.sent_shape, h.sent_len⟩
    · show s.activeTaskCount + 1 ≤ cfg.maxConcurrentTasks
      omega
    · show (s.running ++ [(s.nextToken, task)]).length ≤ s.activeTaskCount + 1
      rw [List.length_append]
      have := h.run_le
      simp only [List.length_cons, List.length_nil]
      omega
    · intro tok hm
      show tok ∈ (s.admitted ++ [(s.nextToken, task)]).map Prod.fst
      rw [List.map_append]
      exact List.mem_append_left _ (h.deq_adm tok hm)
    · intro tok hm
      show tok < s.nextToken + 1
      have hm2 : tok ∈ queueToks s ∨ tok ∈ (s.running ++ [(s.nextToken, task)]).map Prod.fst ∨
          tok ∈ s.emittedFor ∨ tok ∈ s.crashed ∨
          tok ∈ (s.admitted ++ [(s.nextToken, task)]).map Prod.fst := hm
      rcases hm2 with hm2 | hm2 | hm2 | hm2 | hm2
      · exact Nat.lt_succ_of_lt (h.tok_lt tok (Or.inl hm2))
      · rw [List.map_append] at hm2
        rcases List.mem_append.mp hm2 with hm3 | hm3
        · exact Nat.lt_succ_of_lt (h.tok_lt tok (Or.inr (Or.inl hm3)))
        · simp at hm3; omega
      · exact Nat.lt_succ_of_lt (h.tok_lt tok (Or.inr (Or.inr (Or.inl hm2))))
      · exact Nat.lt_succ_of_lt (h.tok_lt tok (Or.inr (Or.inr (Or.inr (Or.inl hm2)))))
      · rw [List.map_append] at hm2
        rcases List.mem_append.mp hm2 with hm3 | hm3
        · exact Nat.lt_succ_of_lt (h.tok_lt tok (Or.inr (Or.inr (Or.inr (Or.inr hm3)))))
        · simp at hm3; omega
    · intro tok
      show List.count tok (s.taskQueue.map Prod.fst) +
          List.count tok ((s.running ++ [(s.nextToken, task)]).map Prod.fst) +
          List.count tok s.emittedFor + List.count tok s.crashed ≤ 1
      rw [List.map_append, List.count_append]
      have hu := huniq tok
      by_cases heq : tok = s.nextToken
      · subst heq
        have h1 : List.count s.nextToken ([(s.nextToken, task)].map Prod.fst) = 1 := by simp
        omega
      · have h1 : List.count tok ([(s.nextToken, task)].map Prod.fst) = 0 := by
          simp [heq]
        omega
    · intro tok
      show List.count tok ((s.admitted ++ [(s.nextToken, task)]).map Prod.fst) =
          List.count tok ((s.running ++ [(s.nextToken, task)]).map Prod.fst) +
          List.count tok s.emittedFor + List.count tok s.crashed
      rw [List.map_append, List.count_append, List.map_append, List.count_append]
      have ha := hadmc tok
      omega
    · intro p hp
      have hp2 : p ∈ s.running ++ [(s.nextToken, task)] := hp
      show p ∈ s.admitted ++ [(s.nextToken, task)]
      rcases List.mem_append.mp hp2 with hp3 | hp3
      · exact List.mem_append_left _ (h.run_adm p hp3)
      · exact List.mem_append_right _ hp3
    · intro tok hm task2 hm2
      have hm3 : (tok, task2) ∈ s.admitted ++ [(s.nextToken, task)] := hm2
      rcases List.mem_append.mp hm3 with hm4 | hm4
      · exact h.crash_nullish tok hm task2 hm4
      · exfalso
        simp at hm4
        exact hfresh tok (Or.inr (Or.inr (Or.inr (Or.inl hm)))) hm4.1

lemma afterSend_nil (cfg : TaskExecutorConfig) (s : EngineState) (hq : s.taskQueue = []) :
    afterSend cfg s = { s with activeTaskCount := s.activeTaskCount - 1 } := by
  unfold afterSend
  simp only [hq]

lemma afterSend_cons (cfg : TaskExecutorConfig) (s : EngineState) (tok2 : Nat) (t2 : JVal)
    (rest : List (Nat × JVal)) (hq : s.taskQueue = (tok2, t2) :: rest) :
    afterSend cfg s = admitOrQueue cfg
      { s with activeTaskCount := s.activeTaskCount - 1, taskQueue := rest,
               deqOrder := s.deqOrder ++ [tok2] } tok2 t2 := by
  unfold afterSend
  simp only [hq]

lemma inv_afterSend (cfg : TaskExecutorConfig) (s : EngineState)
    (hact : s.activeTaskCount ≤ cfg.maxConcurrentTasks)
    (hrun : s.running.length + 1 ≤ s.activeTaskCount)
    (hfifo : s.deqOrder ++ s.taskQueue.map Prod.fst = s.enqOrder)
    (hdeq : ∀ tok ∈ s.deqOrder, tok ∈ s.admitted.map Prod.fst)
    (htok : ∀ tok, tok ∈ s.taskQueue.map Prod.fst ∨ tok ∈ s.running.map Prod.fst ∨
        tok ∈ s.emittedFor ∨ tok ∈ s.crashed ∨ tok ∈ s.admitted.map Prod.fst →
        tok < s.nextToken)
    (huniq : ∀ tok, List.count tok (s.taskQueue.map Prod.fst) +
        List.count tok (s.running.map Prod.fst) + List.count tok s.emittedFor +
        List.count tok s.crashed ≤ 1)
    (hadmc : ∀ tok, List.count tok (s.admitted.map Prod.fst) =
        List.count tok (s.running.map Prod.fst) + List.count tok s.emittedFor +
        List.count tok s.crashed)
    (hruna : ∀ p ∈ s.running, p ∈ s.admitted)
    (hcr : ∀ tok ∈ s.crashed, ∀ task, (tok, task) ∈ s.admitted → isNullish task = true)
    (hshape : ∀ m ∈ s.sent, ResultShape m)
    (hslen : s.sent.length = s.emittedFor.length) :
    EngineInv cfg (afterSend cfg s) := by
  cases hq : s.taskQueue with
  | nil =>
    rw [afterSend_nil cfg s hq]
    refine ⟨?_, ?_, hfifo, hdeq, htok, huniq, hadmc, hruna, hcr, hshape, hslen⟩
    · show s.activeTaskCount - 1 ≤ cfg.maxConcurrentTasks
      omega
    · show s.running.length ≤ s.activeTaskCount - 1
      omega
  | cons hd rest =>
    obtain ⟨tok2, t2⟩ := hd
    rw [afterSend_cons cfg s tok2 t2 rest hq]
    have htq : tok2 ∈ s.taskQueue.map Prod.fst := by
      rw [hq]; exact List.mem_cons_self _ _
    have hqpos : 0 < List.count tok2 (s.taskQueue.map Prod.fst) :=
      List.count_pos_iff.mpr htq
    have hu2 := huniq tok2
    have hr0 : List.count tok2 (s.running.map Prod.fst) = 0 := by omega
    have he0 : List.count tok2 s.emittedFor = 0 := by omega
    have hc0 : List.count tok2 s.crashed = 0 := by omega
    have hq1 : List.count tok2 (s.taskQueue.map Prod.fst) = 1 := by omega
    have hqrest : List.count tok2 (rest.map Prod.fst) = 0 := by
      have : List.count tok2 (s.taskQueue.map Prod.fst) =
          List.count tok2 (rest.map Prod.fst) + 1 := by
        rw [hq]
        simp [List.count_cons]
      omega
    have hcons : ∀ t, List.count t (s.taskQueue.map Prod.fst) =
        List.count t (rest.map Prod.fst) + (if t = tok2 then 1 else 0) := by
      intro t
      rw [hq]
      by_cases ht : t = tok2
      · subst ht; simp [List.count_cons]
      · simp [List.count_cons, ht]
    have hne : ¬ cfg.maxConcurrentTasks ≤ s.activeTaskCount - 1 := by omega
    rw [admitOrQueue_starts cfg
      { s with activeTaskCount := s.activeTaskCount - 1, taskQueue := rest,
               deqOrder := s.deqOrder ++ [tok2] } tok2 t2 hne]
    refine ⟨?_, ?_, ?_, ?_, ?_, ?_, ?_, ?_, ?_, hshape, hslen⟩
    · show s.activeTaskCount - 1 + 1 ≤ cfg.maxConcurrentTasks
      omega
    · show (s.running ++ [(tok2, t2)]).length ≤ s.activeTaskCount - 1 + 1
      rw [List.length_append]
      simp only [List.length_cons, List.length_nil]
      omega
    · show (s.deqOrder ++ [tok2]) ++ rest.map Prod.fst = s.enqOrder
      rw [List.append_assoc, ← hfifo, hq]
      rfl
    · intro t ht
      show t ∈ (s.admitted ++ [(tok2, t2)]).map Prod.fst
      rw [List.map_append]
      have ht2 : t ∈ s.deqOrder ++ [tok2] := ht
      rcases List.mem_append.mp ht2 with ht3 | ht3
      · exact List.mem_append_left _ (hdeq t ht3)
      · simp at ht3
        subst ht3
        apply List.mem_append_right
        simp
    · intro t ht
      show t < s.nextToken
      have ht2 : t ∈ rest.map Prod.fst ∨ t ∈ (s.running ++ [(tok2, t2)]).map Prod.fst ∨
          t ∈ s.emittedFor ∨ t ∈ s.crashed ∨
          t ∈ (s.admitted ++ [(tok2, t2)]).map Prod.fst := ht
      have hrestq : ∀ u, u ∈ rest.map Prod.fst → u ∈ s.taskQueue.map Prod.fst := by
        intro u hu
        rw [hq]
        simp only [List.map_cons]
        exact List.mem_cons_of_mem _ hu
      rcases ht2 with ht3 | ht3 | ht3 | ht3 | ht3
      · exact htok t (Or.inl (hrestq t ht3))
      · rw [List.map_append] at ht3
        rcases List.mem_append.mp ht3 with ht4 | ht4
        · exact htok t (Or.inr (Or.inl ht4))
        · simp at ht4
          subst ht4
          exact htok t (Or.inl htq)
      · exact htok t (Or.inr (Or.inr (Or.inl ht3)))
      · exact htok t (Or.inr (Or.inr (Or.inr (Or.inl ht3))))
      · rw [List.map_append] at ht3
        rcases List.mem_append.mp ht3 with ht4 | ht4
        · exact htok t (Or.inr (Or.inr (Or.inr (Or.inr ht4))))
        · simp at ht4
          subst ht4
          exact htok t (Or.inl htq)
    · intro t
      show List.count t (rest.map Prod.fst) +
          List.count t ((s.running ++ [(tok2, t2)]).map Prod.fst) +
          List.count t s.emittedFor + List.count t s.crashed ≤ 1
      rw [List.map_append, List.count_append]
      have hu := huniq t
      have hc := hcons t
      by_cases ht : t = tok2
      · subst ht
        have h1 : List.count t ([(t, t2)].map Prod.fst) = 1 := by simp
        rw [h1]
        omega
      · have h1 : List.count t ([(tok2, t2)].map Prod.fst) = 0 := by simp [ht]
        rw [h1]
        simp only [ht, if_false] at hc
        omega
    · intro t
      show List.count t ((s.admitted ++ [(tok2, t2)]).map Prod.fst) =
          List.count t ((s.running ++ [(tok2, t2)]).map Prod.fst) +
          List.count t s.emittedFor + List.count t s.crashed
      rw [List.map_append, List.count_append, List.map_append, List.count_append]
      have ha := hadmc t
      omega
    · intro p hp
      have hp2 : p ∈ s.running ++ [(tok2, t2)] := hp
      show p ∈ s.admitted ++ [(tok2, t2)]
      rcases List.mem_append.mp hp2 with hp3 | hp3
      · exact List.mem_append_left _ (hruna p hp3)
      · exact List.mem_append_right _ hp3
    · intro t ht task2 hm2
      have hm3 : (t, task2) ∈ s.admitted ++ [(tok2, t2)] := hm2
      rcases List.mem_append.mp hm3 with hm4 | hm4
      · exact hcr t ht task2 hm4
      · exfalso
        simp at hm4
        have hteq : t = tok2 := hm4.1
        subst hteq
        have : 0 < List.count t s.crashed := List.count_pos_iff.mpr ht
        omega

lemma inv_crash (cfg : TaskExecutorConfig) {s : EngineState} (h : EngineInv cfg s)
    {tok : Nat} {task : JVal} (hmem : (tok, task) ∈ s.running)
    (hnull : isNullish task = true) :
    EngineInv cfg
      { s with running := removeRun s.running tok,
               crashed := s.crashed ++ [tok] } := by
  have hmemf : tok ∈ s.running.map Prod.fst := mem_map_fst hmem
  have hrpos : 0 < List.count tok (s.running.map Prod.fst) := List.count_pos_iff.mpr hmemf
  have husum : List.count tok (s.taskQueue.map Prod.fst) +
      List.count tok (s.running.map Prod.fst) + List.count tok s.emittedFor +
      List.count tok s.crashed ≤ 1 := h.uniq tok
  have hq0 : List.count tok (s.taskQueue.map Prod.fst) = 0 := by omega
  have hr1 : List.count tok (s.running.map Prod.fst) = 1 := by omega
  have he0 : List.count tok s.emittedFor = 0 := by omega
  have hc0 : List.count tok s.crashed = 0 := by omega
  have hlen : (removeRun s.running tok).length + 1 ≤ s.running.length :=
    length_removeRun hmemf
  have hrle : s.running.length ≤ s.activeTaskCount := h.run_le
  refine ⟨h.active_le, ?_, h.fifo, h.deq_adm, ?_, ?_, ?_, ?_, ?_, h.sent_shape, h.sent_len⟩
  · show (removeRun s.running tok).length ≤ s.activeTaskCount
    omega
  · intro t ht
    show t < s.nextToken
    have ht2 : t ∈ s.taskQueue.map Prod.fst ∨ t ∈ (removeRun s.running tok).map Prod.fst ∨
        t ∈ s.emittedFor ∨ t ∈ s.crashed ++ [tok] ∨ t ∈ s.admitted.map Prod.fst := ht
    rcases ht2 with ht3 | ht3 | ht3 | ht3 | ht3
    · exact h.tok_lt t (Or.inl ht3)
    · rcases List.mem_map.mp ht3 with ⟨p, hp, he⟩
      have := mem_of_mem_removeRun hp
      exact h.tok_lt t (Or.inr (Or.inl (he ▸ List.mem_map.mpr ⟨p, this, rfl⟩)))
    · exact h.tok_lt t (Or.inr (Or.inr (Or.inl ht3)))
    · rcases List.mem_append.mp ht3 with ht4 | ht4
      · exact h.tok_lt t (Or.inr (Or.inr (Or.inr (Or.inl ht4))))
      · simp at ht4
        subst ht4
        exact h.tok_lt t (Or.inr (Or.inl hmemf))
    · exact h.tok_lt t (Or.inr (Or.inr (Or.inr (Or.inr ht3))))
  · intro t
    show List.count t (s.taskQueue.map Prod.fst) +
        List.count t ((removeRun s.running tok).map Prod.fst) +
        List.count t s.emittedFor + List.count t (s.crashed ++ [tok]) ≤ 1
    rw [List.count_append]
    by_cases ht : t = tok
    · subst ht
      rw [count_removeRun_self]
      have h1 : List.count t [t] = 1 := by simp
      omega
    · rw [count_removeRun_other _ ht]
      have h1 : List.count t [tok] = 0 := by simp [ht]
      have hu : List.count t (s.taskQueue.map Prod.fst) +
          List.count t (s.running.map Prod.fst) + List.count t s.emittedFor +
          List.count t s.crashed ≤ 1 := h.uniq t
      omega
  · intro t
    show List.count t (s.admitted.map Prod.fst) =
        List.count t ((removeRun s.running tok).map Prod.fst) +
        List.count t s.emittedFor + List.count t (s.crashed ++ [tok])
    rw [List.count_append]
    have ha : List.count t (s.admitted.map Prod.fst) =
        List.count t (s.running.map Prod.fst) + List.count t s.emittedFor +
        List.count t s.crashed := h.adm_count t
    by_cases ht : t = tok
    · subst ht
      rw [count_removeRun_self]
      have h1 : List.count t [t] = 1 := by simp
      omega
    · rw [count_removeRun_other _ ht]
      have h1 : List.count t [tok] = 0 := by simp [ht]
      omega
  · intro p hp
    exact h.run_adm p (mem_of_mem_removeRun hp)
  · intro t ht task2 hm2
    have ht2 : t ∈ s.crashed ++ [tok] := ht
    have hm3 : (t, task2) ∈ s.admitted := hm2
    rcases List.mem_append.mp ht2 with ht3 | ht3
    · exact h.crash_nullish t ht3 task2 hm3
    · simp at ht3
      subst ht3
      have hadm1 : (t, task) ∈ s.admitted := h.run_adm _ hmem
      have hacount : List.count t (s.admitted.map Prod.fst) ≤ 1 := by
        have ha : List.count t (s.admitted.map Prod.fst) =
            List.count t (s.running.map Prod.fst) + List.count t s.emittedFor +
            List.count t s.crashed := h.adm_count t
        have hu : List.count t (s.taskQueue.map Prod.fst) +
            List.count t (s.running.map Prod.fst) + List.count t s.emittedFor +
            List.count t s.crashed ≤ 1 := h.uniq t
        omega
      have := pair_eq_of_count_le_one hacount hm3 hadm1
      rw [this]
      exact hnull

lemma stepFinish_none (cfg : TaskExecutorConfig) (s : EngineState) (tok : Nat)
    (rio : Except String JVal) (ts : String) (hf : findRunning s.running tok = none) :
    stepFinish cfg s tok rio ts = s := by
  unfold stepFinish
  rw [hf]

lemma stepFinish_some (cfg : TaskExecutorConfig) (s : EngineState) (tok : Nat)
    (rio : Except String JVal) (ts : String) (task : JVal)
    (hf : findRunning s.running tok = some task) :
    stepFinish cfg s tok rio ts =
      (match executeTask task rio, getProp task "id" with
      | Except.ok result, Except.ok tid =>
          afterSend cfg
            { s with running := removeRun s.running tok,
                     sent := s.sent ++ [sendTaskResult tid "completed" result none ts],
                     emittedFor := s.emittedFor ++ [tok] }
      | Except.error emsg, Except.ok tid =>
          afterSend cfg
            { s with running := removeRun s.running tok,
                     sent := s.sent ++ [sendTaskResult tid "failed" JVal.null (some emsg) ts],
                     emittedFor := s.emittedFor ++ [tok] }
      | _, Except.error _ =>
          { s with running := removeRun s.running tok,
                   crashed := s.crashed ++ [tok] }) := by
  unfold stepFinish
  rw [hf]

lemma inv_finish (cfg : TaskExecutorConfig) {s : EngineState} (h : EngineInv cfg s)
    (tok : Nat) (rio : Except String JVal) (ts : String) :
    EngineInv cfg (stepFinish cfg s tok rio ts) := by
  cases hf : findRunning s.running tok with
  | none =>
    rw [stepFinish_none cfg s tok rio ts hf]
    exact h
  | some task =>
    rw [stepFinish_some cfg s tok rio ts task hf]
    have hmem : (tok, task) ∈ s.running := findRunning_mem hf
    have hmemf : tok ∈ s.running.map Prod.fst := mem_map_fst hmem
    have hrpos : 0 < List.count tok (s.running.map Prod.fst) := List.count_pos_iff.mpr hmemf
    have husum : List.count tok (s.taskQueue.map Prod.fst) +
        List.count tok (s.running.map Prod.fst) + List.count tok s.emittedFor +
        List.count tok s.crashed ≤ 1 := h.uniq tok
    have hq0 : List.count tok (s.taskQueue.map Prod.fst) = 0 := by omega
    have hr1 : List.count tok (s.running.map Prod.fst) = 1 := by omega
    have he0 : List.count tok s.emittedFor = 0 := by omega
    have hc0 : List.count tok s.crashed = 0 := by omega
    have hlen : (removeRun s.running tok).length + 1 ≤ s.running.length :=
      length_removeRun hmemf
    have hrle : s.running.length ≤ s.activeTaskCount := h.run_le
    have hnorm : ∀ (m : JVal), ResultShape m →
        EngineInv cfg (afterSend cfg
          { s with running := removeRun s.running tok,
                   sent := s.sent ++ [m],
                   emittedFor := s.emittedFor ++ [tok] }) := by
      intro m hm
      refine inv_afterSend cfg _ h.active_le ?_ h.fifo h.deq_adm ?_ ?_ ?_ ?_
        h.crash_nullish ?_ ?_
      · show (removeRun s.running tok).length + 1 ≤ s.activeTaskCount
        omega
      · intro t ht
        show t < s.nextToken
        have ht2 : t ∈ s.taskQueue.map Prod.fst ∨
            t ∈ (removeRun s.running tok).map Prod.fst ∨
            t ∈ s.emittedFor ++ [tok] ∨ t ∈ s.crashed ∨ t ∈ s.admitted.map Prod.fst := ht
        rcases ht2 with ht3 | ht3 | ht3 | ht3 | ht3
        · exact h.tok_lt t (Or.inl ht3)
        · rcases List.mem_map.mp ht3 with ⟨p, hp, he⟩
          have := mem_of_mem_removeRun hp
          exact h.tok_lt t (Or.inr (Or.inl (he ▸ List.mem_map.mpr ⟨p, this, rfl⟩)))
        · rcases List.mem_append.mp ht3 with ht4 | ht4
          · exact h.tok_lt t (Or.inr (Or.inr (Or.inl ht4)))
          · simp at ht4
            subst ht4
            exact h.tok_lt t (Or.inr (Or.inl hmemf))
        · exact h.tok_lt t (Or.inr (Or.inr (Or.inr (Or.inl ht3))))
        · exact h.tok_lt t (Or.inr (Or.inr (Or.inr (Or.inr ht3))))
      · intro t
        show List.count t (s.taskQueue.map Prod.fst) +
            List.count t ((removeRun s.running tok).map Prod.fst) +
            List.count t (s.emittedFor ++ [tok]) + List.count t s.crashed ≤ 1
        rw [List.count_append]
        by_cases ht : t = tok
        · subst ht
          rw [count_removeRun_self]
          have h1 : List.count t [t] = 1 := by simp
          omega
        · rw [count_removeRun_other _ ht]
          have h1 : List.count t [tok] = 0 := by simp [ht]
          have hu : List.count t (s.taskQueue.map Prod.fst) +
              List.count t (s.running.map Prod.fst) + List.count t s.emittedFor +
              List.count t s.crashed ≤ 1 := h.uniq t
          omega
      · intro t
        show List.count t (s.admitted.map Prod.fst) =
            List.count t ((removeRun s.running tok).map Prod.fst) +
            List.count t (s.emittedFor ++ [tok]) + List.count t s.crashed
        rw [List.count_append]
        have ha : List.count t (s.admitted.map Prod.fst) =
            List.count t (s.running.map Prod.fst) + List.count t s.emittedFor +
            List.count t s.crashed := h.adm_count t
        by_cases ht : t = tok
        · subst ht
          rw [count_removeRun_self]
          have h1 : List.count t [t] = 1 := by simp
          omega
        · rw [count_removeRun_other _ ht]
          have h1 : List.count t [tok] = 0 := by simp [ht]
          omega
      · intro p hp
        exact h.run_adm p (mem_of_mem_removeRun hp)
      · intro m2 hm2
        have hm3 : m2 ∈ s.sent ++ [m] := hm2
        rcases List.mem_append.mp hm3 with hm4 | hm4
        · exact h.sent_shape m2 hm4
        · simp at hm4
          subst hm4
          exact hm
      · show (s.sent ++ [m]).length = (s.emittedFor ++ [tok]).length
        rw [List.length_append, List.length_append]
        have := h.sent_len
        simp only [List.length_cons, List.length_nil]
        omega
    cases hex : executeTask task rio with
    | ok result =>
      cases hid : getProp task "id" with
      | ok tid =>
        exact hnorm _ (Or.inl ⟨tid, result, ts, rfl⟩)
      | error e =>
        exact inv_crash cfg h hmem (nullish_of_getProp_error hid)
    | error emsg =>
      cases hid : getProp task "id" with
      | ok tid =>
        exact hnorm _ (Or.inr ⟨tid, emsg, ts, rfl⟩)
      | error e =>
        exact inv_crash cfg h hmem (nullish_of_getProp_error hid)

lemma inv_step (cfg : TaskExecutorConfig) {s : EngineState} (h : EngineInv cfg s) (e : Ev) :
    EngineInv cfg (step cfg s e) := by
  cases e with
  | msg m =>
    show EngineInv cfg (stepMessage cfg s m)
    unfold stepMessage
    split
    · exact h
    · split
      · split
        · exact h
        · exact inv_arrive cfg h _
      · exact h
  | finish tok rio ts =>
    exact inv_finish cfg h tok rio ts

lemma reachable_inv {cfg : TaskExecutorConfig} {s : EngineState}
    (h : Reachable cfg s) : EngineInv cfg s := by
  induction h with
  | init => exact inv_init cfg
  | step e hr ih => exact inv_step cfg ih e

/-! ## Step-equation helpers and dispatch facts -/

lemma find_append_fresh (l : List (Nat × JVal)) (tok : Nat) (task : JVal)
    (h : tok ∉ l.map Prod.fst) :
    (l ++ [(tok, task)]).find? (fun p => p.1 == tok) = some (tok, task) := by
  induction l with
  | nil => simp [List.find?]
  | cons p l ih =>
    have hp : (p.1 == tok) = false := by
      rw [beq_eq_false_iff_ne]
      intro hc
      exact h (by rw [← hc]; exact List.mem_map.mpr ⟨p, List.mem_cons_self _ _, rfl⟩)
    have h2 : tok ∉ l.map Prod.fst := by
      intro hm
      exact h (by rw [List.map_cons]; exact List.mem_cons_of_mem _ hm)
    rw [List.cons_append, List.find?_cons_of_neg _ (by simp [hp]), ih h2]

lemma findRunning_append_fresh (l : List (Nat × JVal)) (tok : Nat) (task : JVal)
    (h : tok ∉ l.map Prod.fst) :
    findRunning (l ++ [(tok, task)]) tok = some task := by
  unfold findRunning
  rw [find_append_fresh l tok task h]

lemma stepArrive_starts (cfg : TaskExecutorConfig) (s : EngineState) (task : JVal)
    (hcap : ¬ cfg.maxConcurrentTasks ≤ s.activeTaskCount) :
    stepArrive cfg s task =
      { s with activeTaskCount := s.activeTaskCount + 1,
               running := s.running ++ [(s.nextToken, task)],
               admitted := s.admitted ++ [(s.nextToken, task)],
               nextToken := s.nextToken + 1 } := by
  unfold stepArrive
  rw [admitOrQueue_starts cfg { s with nextToken := s.nextToken + 1 } s.nextToken task hcap]

lemma stepArrive_queue (cfg : TaskExecutorConfig) (s : EngineState) (task : JVal)
    (hcap : cfg.maxConcurrentTasks ≤ s.activeTaskCount) :
    stepArrive cfg s task =
      { s with taskQueue := s.taskQueue ++ [(s.nextToken, task)],
               enqOrder := s.enqOrder ++ [s.nextToken],
               nextToken := s.nextToken + 1 } := by
  unfold stepArrive
  rw [admitOrQueue_queue cfg { s with nextToken := s.nextToken + 1 } s.nextToken task hcap]

lemma stepFinish_ok_result (cfg : TaskExecutorConfig) (s : EngineState) (tok : Nat)
    (task : JVal) (rio : Except String JVal) (ts : String) (tid result : JVal)
    (hf : findRunning s.running tok = some task)
    (hex : executeTask task rio = Except.ok result)
    (hid : getProp task "id" = Except.ok tid) :
    stepFinish cfg s tok rio ts =
      afterSend cfg
        { s with running := removeRun s.running tok,
                 sent := s.sent ++ [sendTaskResult tid "completed" result none ts],
                 emittedFor := s.emittedFor ++ [tok] } := by
  rw [stepFinish_some cfg s tok rio ts task hf, hex, hid]

lemma stepFinish_error_result (cfg : TaskExecutorConfig) (s : EngineState) (tok : Nat)
    (task : JVal) (rio : Except String JVal) (ts : String) (tid : JVal) (emsg : String)
    (hf : findRunning s.running tok = some task)
    (hex : executeTask task rio = Except.error emsg)
    (hid : getProp task "id" = Except.ok tid) :
    stepFinish cfg s tok rio ts =
      afterSend cfg
        { s with running := removeRun s.running tok,
                 sent := s.sent ++ [sendTaskResult tid "failed" JVal.null (some emsg) ts],
                 emittedFor := s.emittedFor ++ [tok] } := by
  rw [stepFinish_some cfg s tok rio ts task hf, hex, hid]

lemma admitOrQueue_sent (cfg : TaskExecutorConfig) (s : EngineState) (tok : Nat)
    (task : JVal) : (admitOrQueue cfg s tok task).sent = s.sent := by
  unfold admitOrQueue
  split <;> rfl

lemma afterSend_sent (cfg : TaskExecutorConfig) (s : EngineState) :
    (afterSend cfg s).sent = s.sent := by
  cases hq : s.taskQueue with
  | nil => rw [afterSend_nil cfg s hq]
  | cons hd rest =>
    obtain ⟨tok2, t2⟩ := hd
    rw [afterSend_cons cfg s tok2 t2 rest hq, admitOrQueue_sent]

lemma drainCallDepth_eq (q : List JVal) : drainCallDepth q = q.length + 1 := by
  induction q with
  | nil => rfl
  | cons x q ih =>
    show 1 + drainCallDepth q = (x :: q).length + 1
    rw [ih]
    simp [List.length_cons]
    omega

/-- The value a `task_request` carries for a task with the given `id`,
`type` and `parameters` fields. -/
def mkTask (i ty : String) (params : JVal) : JVal :=
  JVal.obj [("id", JVal.str i), ("type", JVal.str ty), ("parameters", params)]

/-- Composition of two property reads, `m[k1][k2]` in the source's
access style, propagating a `TypeError` from the first read. -/
def getPath (m : JVal) (k1 k2 : String) : Except String JVal :=
  match getProp m k1 with
  | Except.ok v => getProp v k2
  | Except.error e => Except.error e

lemma executeTask_unknown_type (i ty : String) (params : JVal) (rio : Except String JVal)
    (hty : ty ∉ ["DOM_MANIPULATION", "NETWORK_INTERCEPT", "UI_AUTOMATION", "DATA_EXTRACTION"]) :
    executeTask (mkTask i ty params) rio = Except.error ("Unknown task type: " ++ ty) := by
  simp only [List.mem_cons, List.not_mem_nil, or_false, not_or] at hty
  obtain ⟨h1, h2, h3, h4⟩ := hty
  have hb1 : (ty == "DOM_MANIPULATION") = false := beq_eq_false_iff_ne.mpr h1
  have hb2 : (ty == "NETWORK_INTERCEPT") = false := beq_eq_false_iff_ne.mpr h2
  have hb3 : (ty == "UI_AUTOMATION") = false := beq_eq_false_iff_ne.mpr h3
  have hb4 : (ty == "DATA_EXTRACTION") = false := beq_eq_false_iff_ne.mpr h4
  have hgp : getProp (mkTask i ty params) "type" = Except.ok (JVal.str ty) := rfl
  simp only [executeTask, hgp, jeqStr, hb1, hb2, hb3, hb4, Bool.false_eq_true,
    if_false, toJSString]

lemma executeTask_unknown_dom_action (i a : String) (sel : JVal) (rio : Except String JVal)
    (ha : a ∉ ["CLICK", "INPUT", "SCROLL"]) :
    executeTask (mkTask i "DOM_MANIPULATION"
        (JVal.obj [("action", JVal.str a), ("selector", sel)])) rio =
      Except.error ("Unknown DOM action: " ++ a) := by
  have hred : executeTask (mkTask i "DOM_MANIPULATION"
      (JVal.obj [("action", JVal.str a), ("selector", sel)])) rio =
      executeDOMTask (mkTask i "DOM_MANIPULATION"
        (JVal.obj [("action", JVal.str a), ("selector", sel)])) rio := rfl
  rw [hred]
  simp only [List.mem_cons, List.not_mem_nil, or_false, not_or] at ha
  obtain ⟨h1, h2, h3⟩ := ha
  have hb1 : (a == "CLICK") = false := beq_eq_false_iff_ne.mpr h1
  have hb2 : (a == "INPUT") = false := beq_eq_false_iff_ne.mpr h2
  have hb3 : (a == "SCROLL") = false := beq_eq_false_iff_ne.mpr h3
  have hgp1 : getProp (mkTask i "DOM_MANIPULATION"
      (JVal.obj [("action", JVal.str a), ("selector", sel)])) "parameters" =
      Except.ok (JVal.obj [("action", JVal.str a), ("selector", sel)]) := rfl
  have hgp2 : getProp (JVal.obj [("action", JVal.str a), ("selector", sel)]) "action" =
      Except.ok (JVal.str a) := rfl
  simp only [executeDOMTask, hgp1, hgp2, jeqStr, hb1, hb2, hb3, Bool.false_eq_true,
    if_false, toJSString]

lemma executeTask_unknown_ui_action (i a : String) (pp : JVal) (rio : Except String JVal)
    (ha : a ∉ ["OPEN_POPUP", "SHOW_NOTIFICATION"]) :
    executeTask (mkTask i "UI_AUTOMATION"
        (JVal.obj [("action", JVal.str a), ("parameters", pp)])) rio =
      Except.error ("Unknown UI action: " ++ a) := by
  have hred : executeTask (mkTask i "UI_AUTOMATION"
      (JVal.obj [("action", JVal.str a), ("parameters", pp)])) rio =
      executeUITask (mkTask i "UI_AUTOMATION"
        (JVal.obj [("action", JVal.str a), ("parameters", pp)])) rio := rfl
  rw [hred]
  simp only [List.mem_cons, List.not_mem_nil, or_false, not_or] at ha
  obtain ⟨h1, h2⟩ := ha
  have hb1 : (a == "OPEN_POPUP") = false := beq_eq_false_iff_ne.mpr h1
  have hb2 : (a == "SHOW_NOTIFICATION") = false := beq_eq_false_iff_ne.mpr h2
  have hgp1 : getProp (mkTask i "UI_AUTOMATION"
      (JVal.obj [("action", JVal.str a), ("parameters", pp)])) "parameters" =
      Except.ok (JVal.obj [("action", JVal.str a), ("parameters", pp)]) := rfl
  have hgp2 : getProp (JVal.obj [("action", JVal.str a), ("parameters", pp)]) "action" =
      Except.ok (JVal.str a) := rfl
  simp only [executeUITask, hgp1, hgp2, jeqStr, hb1, hb2, Bool.false_eq_true,
    if_false, toJSString]

lemma executeTask_unknown_extraction_type (i a : String) (sel : JVal)
    (rio : Except String JVal) (ha : a ∉ ["TEXT", "ATTRIBUTES", "SCREENSHOT"]) :
    executeTask (mkTask i "DATA_EXTRACTION"
        (JVal.obj [("type", JVal.str a), ("selector", sel)])) rio =
      Except.error ("Unknown extraction type: " ++ a) := by
  have hred : executeTask (mkTask i "DATA_EXTRACTION"
      (JVal.obj [("type", JVal.str a), ("selector", sel)])) rio =
      executeDataExtractionTask (mkTask i "DATA_EXTRACTION"
        (JVal.obj [("type", JVal.str a), ("selector", sel)])) rio := rfl
  rw [hred]
  simp only [List.mem_cons, List.not_mem_nil, or_false, not_or] at ha
  obtain ⟨h1, h2, h3⟩ := ha
  have hb1 : (a == "TEXT") = false := beq_eq_false_iff_ne.mpr h1
  have hb2 : (a == "ATTRIBUTES") = false := beq_eq_false_iff_ne.mpr h2
  have hb3 : (a == "SCREENSHOT") = false := beq_eq_false_iff_ne.mpr h3
  have hgp1 : getProp (mkTask i "DATA_EXTRACTION"
      (JVal.obj [("type", JVal.str a), ("selector", sel)])) "parameters" =
      Except.ok (JVal.obj [("type", JVal.str a), ("selector", sel)]) := rfl
  have hgp2 : getProp (JVal.obj [("type", JVal.str a), ("selector", sel)]) "type" =
      Except.ok (JVal.str a) := rfl
  simp only [executeDataExtractionTask, hgp1, hgp2, jeqStr, hb1, hb2, hb3,
    Bool.false_eq_true, if_false, toJSString]

/-! ## Concrete inputs used in witnesses and counterexamples -/

/-- A configuration with capacity one, exercising the queue path. -/
def cfgOne : TaskExecutorConfig :=
  { maxConcurrentTasks := 1, defaultTimeout := 30000, retryAttempts := 3 }

/-- A well-formed surface CLICK task. -/
def clickTask : JVal :=
  mkTask "t1" "DOM_MANIPULATION"
    (JVal.obj [("action", JVal.str "CLICK"), ("selector", JVal.str "#btn")])

/-- A well-formed network interception task. -/
def fetchTask : JVal :=
  mkTask "t2" "NETWORK_INTERCEPT"
    (JVal.obj [("url", JVal.str "http://localhost:8000/x"), ("method", JVal.str "GET")])

/-- A `task_request` wire message carrying the given task value. -/
def requestMsg (task : JVal) : JVal :=
  JVal.obj [("sender", JVal.str "jarvis"), ("message_type", JVal.str "task_request"),
    ("content", task)]

/-- A `task_request` whose `content` is the JSON value `null`. -/
def badContentMsg : JVal :=
  JVal.obj [("message_type", JVal.str "task_request"), ("content", JVal.null)]

/-- A fixed clock reading. -/
def wTs : String := "2025-01-01T00:00:00.000Z"

/-- Capacity-one engine after one CLICK task arrived (and was admitted). -/
def w2a : EngineState := step cfgOne initialState (Ev.msg (requestMsg clickTask))

/-- The same engine after that task's promise resolved. -/
def w2b : EngineState := step cfgOne w2a (Ev.finish 0 (Except.ok (JVal.bool true)) wTs)

/-! ## The claims -/

/-- C1: in every reachable state of the dispatch engine the number of
Active tasks never exceeds the configured cap: `activeTaskCount` is
bounded by `maxConcurrentTasks`, the in-flight tasks are no more than
`activeTaskCount`, and a task arriving while
`activeTaskCount ≥ maxConcurrentTasks` is appended to `taskQueue`
instead of being started. -/
theorem admission_bound (cfg : TaskExecutorConfig) (s : EngineState)
    (hr : Reachable cfg s) :
    s.activeTaskCount ≤ cfg.maxConcurrentTasks ∧
    s.running.length ≤ cfg.maxConcurrentTasks ∧
    (∀ task, cfg.maxConcurrentTasks ≤ s.activeTaskCount →
      stepArrive cfg s task =
        { s with taskQueue := s.taskQueue ++ [(s.nextToken, task)],
                 enqOrder := s.enqOrder ++ [s.nextToken],
                 nextToken := s.nextToken + 1 }) := by
  have h := reachable_inv hr
  exact ⟨h.active_le, le_trans h.run_le h.active_le,
    fun task hcap => stepArrive_queue cfg s task hcap⟩

theorem admission_bound_witness :
    (step cfgOne initialState (Ev.msg (requestMsg clickTask))).activeTaskCount ≤
      cfgOne.maxConcurrentTasks :=
  (admission_bound cfgOne (step cfgOne initialState (Ev.msg (requestMsg clickTask)))
    (Reachable.step (Ev.msg (requestMsg clickTask)) Reachable.init)).1

/-- C2: every task admitted for execution whose value is not nullish
(i.e. every Task in the sense of the data model) gets exactly one
`task_result`: its emission count is at most one always, exactly one
once it is no longer in flight; emission records correspond one-to-one
to sent messages; and every sent message carries a terminal status
(`completed` when the handler resolved, `failed` when it threw). -/
theorem exactly_one_result (cfg : TaskExecutorConfig) (s : EngineState)
    (hr : Reachable cfg s) (tok : Nat) (task : JVal)
    (hadm : (tok, task) ∈ s.admitted) (hnn : isNullish task = false) :
    s.emittedFor.count tok ≤ 1 ∧
    (tok ∉ runToks s → s.emittedFor.count tok = 1) ∧
    s.sent.length = s.emittedFor.length ∧
    (∀ m ∈ s.sent, getPath m "content" "status" = Except.ok (JVal.str "completed") ∨
      getPath m "content" "status" = Except.ok (JVal.str "failed")) := by
  have h := reachable_inv hr
  have hadmf : tok ∈ s.admitted.map Prod.fst := mem_map_fst hadm
  have hapos : 0 < List.count tok (s.admitted.map Prod.fst) := List.count_pos_iff.mpr hadmf
  have ha : List.count tok (s.admitted.map Prod.fst) =
      List.count tok (s.running.map Prod.fst) + List.count tok s.emittedFor +
      List.count tok s.crashed := h.adm_count tok
  have hu : List.count tok (s.taskQueue.map Prod.fst) +
      List.count tok (s.running.map Prod.fst) + List.count tok s.emittedFor +
      List.count tok s.crashed ≤ 1 := h.uniq tok
  refine ⟨by omega, ?_, h.sent_len, ?_⟩
  · intro hnr
    have hr0 : List.count tok (s.running.map Prod.fst) = 0 := by
      rw [List.count_eq_zero]
      exact hnr
    have hcr : List.count tok s.crashed = 0 := by
      rw [List.count_eq_zero]
      intro hmc
      have hnull := h.crash_nullish tok hmc task hadm
      rw [hnn] at hnull
      cases hnull
    omega
  · intro m hm
    rcases h.sent_shape m hm with ⟨tid, res, ts2, hmeq⟩ | ⟨tid, e2, ts2, hmeq⟩
    · subst hmeq
      exact Or.inl rfl
    · subst hmeq
      exact Or.inr rfl

theorem exactly_one_result_witness : w2b.emittedFor.count 0 = 1 :=
  (exactly_one_result cfgOne w2b
    (Reachable.step (Ev.finish 0 (Except.ok (JVal.bool true)) wTs)
      (Reachable.step (Ev.msg (requestMsg clickTask)) Reachable.init))
    0 clickTask
    (by show (0, clickTask) ∈ [(0, clickTask)]; exact List.mem_singleton_self _)
    (by rfl)).2.1
    (by show (0 : Nat) ∉ ([] : List Nat); simp)

/-- C3: tasks queued while the engine is at capacity are admitted in
strict arrival order: in every reachable state the sequence of tokens
popped from the queue is a prefix of the sequence of tokens pushed onto
it (pops happen at the head, pushes at the back), and every popped task
was admitted to Active at its pop. -/
theorem fifo_queue_admission (cfg : TaskExecutorConfig) (s : EngineState)
    (hr : Reachable cfg s) :
    s.deqOrder <+: s.enqOrder ∧ ∀ tok ∈ s.deqOrder, tok ∈ admToks s := by
  have h := reachable_inv hr
  exact ⟨⟨queueToks s, h.fifo⟩, h.deq_adm⟩

/-- Capacity-one engine: one task admitted, two queued, then the first
finishes and the head of the queue is admitted. -/
def w3 : EngineState :=
  runEngine cfgOne
    [Ev.msg (requestMsg clickTask), Ev.msg (requestMsg fetchTask),
     Ev.msg (requestMsg clickTask), Ev.finish 0 (Except.ok (JVal.bool true)) wTs]

theorem fifo_queue_admission_witness : w3.deqOrder <+: w3.enqOrder :=
  (fifo_queue_admission cfgOne w3
    (Reachable.step (Ev.finish 0 (Except.ok (JVal.bool true)) wTs)
      (Reachable.step (Ev.msg (requestMsg clickTask))
        (Reachable.step (Ev.msg (requestMsg fetchTask))
          (Reachable.step (Ev.msg (requestMsg clickTask)) Reachable.init))))).1

/-- C4: a task whose `type` is none of the four known categories makes
`executeTask` throw exactly `"Unknown task type: <type>"`; run through
the engine (arrival below capacity, then the settling of its promise)
it produces exactly one `task_result` with status `failed` and that
error, `activeTaskCount` returns to its pre-arrival value when the
queue is empty, and a non-empty queue keeps draining: its head is
popped and admitted as usual. -/
theorem unknown_type_failure (cfg : TaskExecutorConfig) (s : EngineState)
    (i ty : String) (params : JVal) (rio : Except String JVal) (ts : String)
    (hcap : ¬ cfg.maxConcurrentTasks ≤ s.activeTaskCount)
    (htok : s.nextToken ∉ runToks s)
    (hty : ty ∉ ["DOM_MANIPULATION", "NETWORK_INTERCEPT", "UI_AUTOMATION", "DATA_EXTRACTION"]) :
    executeTask (mkTask i ty params) rio = Except.error ("Unknown task type: " ++ ty) ∧
    (stepFinish cfg (stepArrive cfg s (mkTask i ty params)) s.nextToken rio ts).sent =
      s.sent ++ [sendTaskResult (JVal.str i) "failed" JVal.null
        (some ("Unknown task type: " ++ ty)) ts] ∧
    (s.taskQueue = [] →
      (stepFinish cfg (stepArrive cfg s (mkTask i ty params))
          s.nextToken rio ts).activeTaskCount = s.activeTaskCount ∧
      (stepFinish cfg (stepArrive cfg s (mkTask i ty params))
          s.nextToken rio ts).taskQueue = []) ∧
    (∀ tok2 t2 rest, s.taskQueue = (tok2, t2) :: rest →
      (stepFinish cfg (stepArrive cfg s (mkTask i ty params))
          s.nextToken rio ts).taskQueue = rest ∧
      (tok2, t2) ∈ (stepFinish cfg (stepArrive cfg s (mkTask i ty params))
          s.nextToken rio ts).running) := by
  have hpure := executeTask_unknown_type i ty params rio hty
  have hid : getProp (mkTask i ty params) "id" = Except.ok (JVal.str i) := rfl
  have hfind : findRunning (s.running ++ [(s.nextToken, mkTask i ty params)]) s.nextToken =
      some (mkTask i ty params) := findRunning_append_fresh _ _ _ htok
  have hSF : stepFinish cfg (stepArrive cfg s (mkTask i ty params)) s.nextToken rio ts =
      afterSend cfg
        { s with activeTaskCount := s.activeTaskCount + 1,
                 running := removeRun (s.running ++ [(s.nextToken, mkTask i ty params)])
                   s.nextToken,
                 admitted := s.admitted ++ [(s.nextToken, mkTask i ty params)],
                 nextToken := s.nextToken + 1,
                 sent := s.sent ++ [sendTaskResult (JVal.str i) "failed" JVal.null
                   (some ("Unknown task type: " ++ ty)) ts],
                 emittedFor := s.emittedFor ++ [s.nextToken] } := by
    rw [stepArrive_starts cfg s (mkTask i ty params) hcap]
    exact stepFinish_error_result cfg _ s.nextToken (mkTask i ty params) rio ts
      (JVal.str i) _ hfind hpure hid
  refine ⟨hpure, ?_, ?_, ?_⟩
  · rw [hSF, afterSend_sent]
  · intro hq
    rw [hSF, afterSend_nil cfg
      { s with activeTaskCount := s.activeTaskCount + 1,
                 running := removeRun (s.running ++ [(s.nextToken, mkTask i ty params)])
                   s.nextToken,
                 admitted := s.admitted ++ [(s.nextToken, mkTask i ty params)],
                 nextToken := s.nextToken + 1,
                 sent := s.sent ++ [sendTaskResult (JVal.str i) "failed" JVal.null
                   (some ("Unknown task type: " ++ ty)) ts],
                 emittedFor := s.emittedFor ++ [s.nextToken] } hq]
    refine ⟨?_, hq⟩
    show s.activeTaskCount + 1 - 1 = s.activeTaskCount
    omega
  · intro tok2 t2 rest hq
    rw [hSF, afterSend_cons cfg
      { s with activeTaskCount := s.activeTaskCount + 1,
                 running := removeRun (s.running ++ [(s.nextToken, mkTask i ty params)])
                   s.nextToken,
                 admitted := s.admitted ++ [(s.nextToken, mkTask i ty params)],
                 nextToken := s.nextToken + 1,
                 sent := s.sent ++ [sendTaskResult (JVal.str i) "failed" JVal.null
                   (some ("Unknown task type: " ++ ty)) ts],
                 emittedFor := s.emittedFor ++ [s.nextToken] } tok2 t2 rest hq]
    rw [admitOrQueue_starts cfg
      { s with activeTaskCount := s.activeTaskCount + 1 - 1,
               running := removeRun (s.running ++ [(s.nextToken, mkTask i ty params)])
                 s.nextToken,
               admitted := s.admitted ++ [(s.nextToken, mkTask i ty params)],
               nextToken := s.nextToken + 1,
               sent := s.sent ++ [sendTaskResult (JVal.str i) "failed" JVal.null
                 (some ("Unknown task type: " ++ ty)) ts],
               emittedFor := s.emittedFor ++ [s.nextToken],
               taskQueue := rest,
               deqOrder := s.deqOrder ++ [tok2] } tok2 t2
      (by show ¬ cfg.maxConcurrentTasks ≤ s.activeTaskCount + 1 - 1; omega)]
    exact ⟨rfl, List.mem_append_right _ (List.mem_singleton_self _)⟩

theorem unknown_type_failure_witness :
    (stepFinish jarvisConfig
        (stepArrive jarvisConfig initialState (mkTask "t9" "BOGUS" (JVal.obj [])))
        initialState.nextToken (Except.ok JVal.null) wTs).sent =
      initialState.sent ++ [sendTaskResult (JVal.str "t9") "failed" JVal.null
        (some ("Unknown task type: " ++ "BOGUS")) wTs] :=
  (unknown_type_failure jarvisConfig initialState "t9" "BOGUS" (JVal.obj [])
    (Except.ok JVal.null) wTs (by decide)
    (by show (0 : Nat) ∉ ([] : List Nat); simp) (by decide)).2.1

/-- C5 (amended): when an in-flight task's promise settles, the engine
emits its single task-result message, decrements `activeTaskCount`, and
if the queue is non-empty pops exactly its head and admits it via a
recursive re-entry of the intake routine — one pop per completion —
and the drain's nesting depth is `queue length + 1`, growing linearly
rather than being bounded. -/
theorem completion_drain (cfg : TaskExecutorConfig) (s : EngineState) (tok : Nat)
    (task : JVal) (rio : Except String JVal) (ts : String) (tid : JVal)
    (hf : findRunning s.running tok = some task)
    (hid : getProp task "id" = Except.ok tid)
    (hact1 : 1 ≤ s.activeTaskCount)
    (hactle : s.activeTaskCount ≤ cfg.maxConcurrentTasks) :
    (∃ m, (stepFinish cfg s tok rio ts).sent = s.sent ++ [m] ∧ ResultShape m) ∧
    (s.taskQueue = [] →
      (stepFinish cfg s tok rio ts).activeTaskCount = s.activeTaskCount - 1 ∧
      (stepFinish cfg s tok rio ts).taskQueue = []) ∧
    (∀ tok2 t2 rest, s.taskQueue = (tok2, t2) :: rest →
      (stepFinish cfg s tok rio ts).taskQueue = rest ∧
      (tok2, t2) ∈ (stepFinish cfg s tok rio ts).running ∧
      (stepFinish cfg s tok rio ts).activeTaskCount = s.activeTaskCount) ∧
    (∀ q : List JVal, drainCallDepth q = q.length + 1) := by
  have hSF : ∃ m, ResultShape m ∧ stepFinish cfg s tok rio ts =
      afterSend cfg
        { s with running := removeRun s.running tok,
                 sent := s.sent ++ [m],
                 emittedFor := s.emittedFor ++ [tok] } := by
    cases hex : executeTask task rio with
    | ok result =>
      exact ⟨_, Or.inl ⟨tid, result, ts, rfl⟩,
        stepFinish_ok_result cfg s tok task rio ts tid result hf hex hid⟩
    | error emsg =>
      exact ⟨_, Or.inr ⟨tid, emsg, ts, rfl⟩,
        stepFinish_error_result cfg s tok task rio ts tid emsg hf hex hid⟩
  obtain ⟨m, hm, hsf⟩ := hSF
  refine ⟨⟨m, ?_, hm⟩, ?_, ?_, drainCallDepth_eq⟩
  · rw [hsf, afterSend_sent]
  · intro hq
    rw [hsf, afterSend_nil cfg
      { s with running := removeRun s.running tok,
                 sent := s.sent ++ [m],
                 emittedFor := s.emittedFor ++ [tok] } hq]
    exact ⟨rfl, hq⟩
  · intro tok2 t2 rest hq
    rw [hsf, afterSend_cons cfg
      { s with running := removeRun s.running tok,
                 sent := s.sent ++ [m],
                 emittedFor := s.emittedFor ++ [tok] } tok2 t2 rest hq]
    rw [admitOrQueue_starts cfg
      { s with running := removeRun s.running tok,
               sent := s.sent ++ [m],
               emittedFor := s.emittedFor ++ [tok],
               activeTaskCount := s.activeTaskCount - 1,
               taskQueue := rest,
               deqOrder := s.deqOrder ++ [tok2] } tok2 t2
      (by show ¬ cfg.maxConcurrentTasks ≤ s.activeTaskCount - 1; omega)]
    refine ⟨rfl, List.mem_append_right _ (List.mem_singleton_self _), ?_⟩
    show s.activeTaskCount - 1 + 1 = s.activeTaskCount
    omega

theorem completion_drain_witness :
    (stepFinish cfgOne w2a 0 (Except.ok (JVal.bool true)) wTs).activeTaskCount =
      w2a.activeTaskCount - 1 ∧
    (stepFinish cfgOne w2a 0 (Except.ok (JVal.bool true)) wTs).taskQueue = [] :=
  (completion_drain cfgOne w2a 0 clickTask (Except.ok (JVal.bool true)) wTs
    (JVal.str "t1") (by rfl) (by rfl)
    (by show (1 : Nat) ≤ 1; decide) (by show (1 : Nat) ≤ 1; decide)).2.1 (by rfl)

/-- C5 counterexample: the reference drain is recursive, so its call
depth is not bounded independently of queue length — for every
candidate bound there is a queue exceeding it. -/
theorem drain_depth_not_bounded :
    ¬ ∃ B : Nat, ∀ q : List JVal, drainCallDepth q ≤ B := by
  rintro ⟨B, hB⟩
  have h1 := hB (List.replicate (B + 1) JVal.null)
  rw [drainCallDepth_eq, List.length_replicate] at h1
  omega

/-- C6: a task with a known category but an unrecognized `action`
sub-field (or, for the extraction handler, `type` sub-field) yields the
handler's category-specific error — `"Unknown DOM action: <action>"`,
`"Unknown UI action: <action>"`, `"Unknown extraction type: <type>"` —
and a handler error of any admitted task flows through the ordinary
failure path: exactly one `failed` task-result is appended and the
engine continues. -/
theorem unknown_action_failure (i1 i2 i3 a1 a2 a3 : String) (sel pp sel3 : JVal)
    (rio : Except String JVal)
    (h1 : a1 ∉ ["CLICK", "INPUT", "SCROLL"])
    (h2 : a2 ∉ ["OPEN_POPUP", "SHOW_NOTIFICATION"])
    (h3 : a3 ∉ ["TEXT", "ATTRIBUTES", "SCREENSHOT"]) :
    executeTask (mkTask i1 "DOM_MANIPULATION"
        (JVal.obj [("action", JVal.str a1), ("selector", sel)])) rio =
      Except.error ("Unknown DOM action: " ++ a1) ∧
    executeTask (mkTask i2 "UI_AUTOMATION"
        (JVal.obj [("action", JVal.str a2), ("parameters", pp)])) rio =
      Except.error ("Unknown UI action: " ++ a2) ∧
    executeTask (mkTask i3 "DATA_EXTRACTION"
        (JVal.obj [("type", JVal.str a3), ("selector", sel3)])) rio =
      Except.error ("Unknown extraction type: " ++ a3) ∧
    (∀ (cfg : TaskExecutorConfig) (s : EngineState) (tok : Nat) (task : JVal)
        (rio2 : Except String JVal) (ts : String) (tid : JVal) (emsg : String),
      findRunning s.running tok = some task →
      executeTask task rio2 = Except.error emsg →
      getProp task "id" = Except.ok tid →
      (stepFinish cfg s tok rio2 ts).sent =
        s.sent ++ [sendTaskResult tid "failed" JVal.null (some emsg) ts]) := by
  refine ⟨executeTask_unknown_dom_action i1 a1 sel rio h1,
    executeTask_unknown_ui_action i2 a2 pp rio h2,
    executeTask_unknown_extraction_type i3 a3 sel3 rio h3, ?_⟩
  intro cfg s tok task rio2 ts tid emsg hf hex hid
  rw [stepFinish_error_result cfg s tok task rio2 ts tid emsg hf hex hid, afterSend_sent]

theorem unknown_action_failure_witness :
    executeTask (mkTask "t7" "DOM_MANIPULATION"
        (JVal.obj [("action", JVal.str "HOVER"), ("selector", JVal.str "#a")]))
      (Except.ok JVal.null) = Except.error ("Unknown DOM action: " ++ "HOVER") :=
  (unknown_action_failure "t7" "t7" "t7" "HOVER" "BLINK" "VIDEO" (JVal.str "#a")
    (JVal.obj []) (JVal.str "#a") (Except.ok JVal.null)
    (by decide) (by decide) (by decide)).1

/-- C7 (amended): every message the engine sends is a `task_result`
object whose `content` carries `task_id`, a status that is exactly
`"completed"` or `"failed"`, a `result` value (the handler's value —
possibly a boolean — or `null`), an `error` that is a string or
`null`, and a string `timestamp` supplied by the clock; the message has
no top-level `sender` field (reading it yields `undefined`). -/
theorem task_result_shape (cfg : TaskExecutorConfig) (s : EngineState)
    (hr : Reachable cfg s) (m : JVal) (hm : m ∈ s.sent) :
    getProp m "message_type" = Except.ok (JVal.str "task_result") ∧
    getProp m "sender" = Except.ok JVal.undef ∧
    (∃ tid, getPath m "content" "task_id" = Except.ok tid) ∧
    (getPath m "content" "status" = Except.ok (JVal.str "completed") ∨
     getPath m "content" "status" = Except.ok (JVal.str "failed")) ∧
    (∃ r, getPath m "content" "result" = Except.ok r) ∧
    (getPath m "content" "error" = Except.ok JVal.null ∨
     ∃ e, getPath m "content" "error" = Except.ok (JVal.str e)) ∧
    (∃ t, getPath m "content" "timestamp" = Except.ok (JVal.str t)) := by
  have h := reachable_inv hr
  rcases h.sent_shape m hm with ⟨tid, res, ts2, hmeq⟩ | ⟨tid, e2, ts2, hmeq⟩
  · subst hmeq
    exact ⟨rfl, rfl, ⟨tid, rfl⟩, Or.inl rfl, ⟨res, rfl⟩, Or.inl rfl, ⟨ts2, rfl⟩⟩
  · subst hmeq
    exact ⟨rfl, rfl, ⟨tid, rfl⟩, Or.inr rfl, ⟨JVal.null, rfl⟩, Or.inr ⟨e2, rfl⟩, ⟨ts2, rfl⟩⟩

/-- Engine state after a network task completed with a `null` payload. -/
def w7 : EngineState :=
  step jarvisConfig (step jarvisConfig initialState (Ev.msg (requestMsg fetchTask)))
    (Ev.finish 0 (Except.ok JVal.null) wTs)

theorem task_result_shape_witness :
    getProp (sendTaskResult (JVal.str "t2") "completed" JVal.null none wTs) "sender" =
      Except.ok JVal.undef :=
  (task_result_shape jarvisConfig w7
    (Reachable.step (Ev.finish 0 (Except.ok JVal.null) wTs)
      (Reachable.step (Ev.msg (requestMsg fetchTask)) Reachable.init))
    (sendTaskResult (JVal.str "t2") "completed" JVal.null none wTs)
    (by show sendTaskResult (JVal.str "t2") "completed" JVal.null none wTs ∈
          [sendTaskResult (JVal.str "t2") "completed" JVal.null none wTs]
        exact List.mem_singleton_self _)).2.1

/-- C7 counterexample: the engine emits, on a concrete trace, a
`task_result` with no top-level `sender` field (reading `sender`
yields `undefined`, not a string), and whose `result` is the boolean
`false` rather than an object or `null` — against the claimed wire
shape `{sender: string, message_type: string, content: {...,
result: object|null, ...}}`. -/
theorem task_result_shape_counterexample :
    (step jarvisConfig (step jarvisConfig initialState (Ev.msg (requestMsg clickTask)))
        (Ev.finish 0 (Except.ok (JVal.bool false)) wTs)).sent =
      [sendTaskResult (JVal.str "t1") "completed" (JVal.bool false) none wTs] ∧
    getProp (sendTaskResult (JVal.str "t1") "completed" (JVal.bool false) none wTs)
      "sender" = Except.ok JVal.undef ∧
    getPath (sendTaskResult (JVal.str "t1") "completed" (JVal.bool false) none wTs)
      "content" "result" = Except.ok (JVal.bool false) :=
  ⟨rfl, rfl, rfl⟩

/-- C8 evaluated at the failing input: a message that is not a
well-formed `task_request` (here, a `message_type` of `"chat"`) is
indeed ignored, but a `task_request` whose `content` is `null` is
admitted, increments `activeTaskCount`, and when its promise settles
the `catch` handler itself throws reading `task.id`, so the decrement
and the queue drain are skipped: `activeTaskCount` stays at 1 with
nothing running, no result ever sent, permanently leaking an admission
slot — the engine state is corrupted. -/
theorem malformed_request_corrupts_count :
    step jarvisConfig initialState
      (Ev.msg (JVal.obj [("message_type", JVal.str "chat"), ("content", JVal.null)])) =
      initialState ∧
    (step jarvisConfig (step jarvisConfig initialState (Ev.msg badContentMsg))
        (Ev.finish 0 (Except.ok JVal.null) wTs)).activeTaskCount = 1 ∧
    (step jarvisConfig (step jarvisConfig initialState (Ev.msg badContentMsg))
        (Ev.finish 0 (Except.ok JVal.null) wTs)).running = [] ∧
    (step jarvisConfig (step jarvisConfig initialState (Ev.msg badContentMsg))
        (Ev.finish 0 (Except.ok JVal.null) wTs)).sent = [] ∧
    (step jarvisConfig (step jarvisConfig initialState (Ev.msg badContentMsg))
        (Ev.finish 0 (Except.ok JVal.null) wTs)).taskQueue = [] :=
  ⟨rfl, rfl, rfl, rfl, rfl⟩

/-- C9: the `retryAttempts` configuration field is never consulted: two
engines whose configurations differ only in `retryAttempts` produce
identical states — hence identical emitted messages and state
transitions — on every event sequence, so no failed task is ever
re-executed because of it. -/
theorem retry_attempts_unused (mc d r1 r2 : Nat) (evs : List Ev) :
    runEngine { maxConcurrentTasks := mc, defaultTimeout := d, retryAttempts := r1 } evs =
    runEngine { maxConcurrentTasks := mc, defaultTimeout := d, retryAttempts := r2 } evs := by
  have hstep : ∀ (s : EngineState) (e : Ev),
      step { maxConcurrentTasks := mc, defaultTimeout := d, retryAttempts := r1 } s e =
      step { maxConcurrentTasks := mc, defaultTimeout := d, retryAttempts := r2 } s e := by
    intro s e
    cases e <;> rfl
  unfold runEngine
  suffices h : ∀ s0 : EngineState,
      List.foldl
        (step { maxConcurrentTasks := mc, defaultTimeout := d, retryAttempts := r1 })
        s0 evs =
      List.foldl
        (step { maxConcurrentTasks := mc, defaultTimeout := d, retryAttempts := r2 })
        s0 evs by
    exact h initialState
  induction evs with
  | nil => intro s0; rfl
  | cons e evs ih =>
    intro s0
    rw [List.foldl_cons, List.foldl_cons, hstep s0 e]
    exact ih _

/-- C10: every emitted `task_result` pairs its payload with its status:
a `completed` message has a `null` `error` field, and a `failed`
message has a `null` `result` field — no message carries both a
non-null result and a non-null error. -/
theorem status_payload_pairing (cfg : TaskExecutorConfig) (s : EngineState)
    (hr : Reachable cfg s) (m : JVal) (hm : m ∈ s.sent) :
    (getPath m "content" "status" = Except.ok (JVal.str "completed") →
      getPath m "content" "error" = Except.ok JVal.null) ∧
    (getPath m "content" "status" = Except.ok (JVal.str "failed") →
      getPath m "content" "result" = Except.ok JVal.null) := by
  have h := reachable_inv hr
  rcases h.sent_shape m hm with ⟨tid, res, ts2, hmeq⟩ | ⟨tid, e2, ts2, hmeq⟩
  · subst hmeq
    refine ⟨fun _ => rfl, fun hcon => ?_⟩
    have h2 : (Except.ok (JVal.str "completed") : Except String JVal) =
        Except.ok (JVal.str "failed") :=
      (show getPath (sendTaskResult tid "completed" res none ts2) "content" "status" =
        Except.ok (JVal.str "completed") from rfl).symm.trans hcon
    simp at h2
  · subst hmeq
    refine ⟨fun hcon => ?_, fun _ => rfl⟩
    have h2 : (Except.ok (JVal.str "failed") : Except String JVal) =
        Except.ok (JVal.str "completed") :=
      (show getPath (sendTaskResult tid "failed" JVal.null (some e2) ts2) "content"
        "status" = Except.ok (JVal.str "failed") from rfl).symm.trans hcon
    simp at h2

/-- Engine state after a bogus-type task failed. -/
def w10 : EngineState :=
  step jarvisConfig
    (step jarvisConfig initialState (Ev.msg (requestMsg (mkTask "t5" "FOO" (JVal.obj [])))))
    (Ev.finish 0 (Except.ok JVal.null) wTs)

theorem status_payload_pairing_witness :
    getPath (sendTaskResult (JVal.str "t5") "failed" JVal.null
        (some ("Unknown task type: " ++ "FOO")) wTs) "content" "result" =
      Except.ok JVal.null :=
  (status_payload_pairing jarvisConfig w10
    (Reachable.step (Ev.finish 0 (Except.ok JVal.null) wTs)
      (Reachable.step (Ev.msg (requestMsg (mkTask "t5" "FOO" (JVal.obj []))))
        Reachable.init))
    (sendTaskResult (JVal.str "t5") "failed" JVal.null
      (some ("Unknown task type: " ++ "FOO")) wTs)
    (by show sendTaskResult (JVal.str "t5") "failed" JVal.null
          (some ("Unknown task type: " ++ "FOO")) wTs ∈
          [sendTaskResult (JVal.str "t5") "failed" JVal.null
            (some ("Unknown task type: " ++ "FOO")) wTs]
        exact List.mem_singleton_self _)).2 rfl
